import Mathlib

set_option maxHeartbeats 1000000

namespace NotesApp

-- ===========================================================================
-- Data model (src/Home.tsx, backend schema in the repository README:
-- notes carry note_id, note_title, note_content, last_update).
-- Timestamps are modelled as Nat milliseconds, the value of
-- `new Date(x).getTime()` in src/Home.tsx lines 60-62.
-- ===========================================================================

structure Note where
  note_id : String
  note_title : String
  note_content : String
  last_update : Nat
deriving Repr, DecidableEq

inductive SortBy where
  | newest
  | oldest
  | title
deriving Repr, DecidableEq

-- ===========================================================================
-- Case-insensitive substring search (src/Home.tsx lines 53-56):
--   note.note_title.toLowerCase().includes(searchTerm.toLowerCase()) ||
--   note.note_content.toLowerCase().includes(searchTerm.toLowerCase())
-- `charsStartWith hay pat` and `charsContain hay pat` embed the JS
-- `String.prototype.includes` contiguous-substring test on char lists.
-- ===========================================================================

def charsStartWith : List Char → List Char → Bool
  | _, [] => true
  | [], _ :: _ => false
  | a :: as, b :: bs => a == b && charsStartWith as bs

def charsContain : List Char → List Char → Bool
  | [], pat => charsStartWith [] pat
  | a :: as, pat => charsStartWith (a :: as) pat || charsContain as pat

/-- Lower-cased character sequence of a string, the embedding of the JS
`s.toLowerCase()` (restricted to the simple per-character case mapping). -/
def lowerData (s : String) : List Char := s.data.map Char.toLower

/-- Embeds `hay.toLowerCase().includes(pat.toLowerCase())`. -/
def jsIncludes (hay pat : String) : Bool :=
  charsContain (lowerData hay) (lowerData pat)

/-- The filter predicate of src/Home.tsx lines 53-56. -/
def noteMatches (note : Note) (searchTerm : String) : Bool :=
  jsIncludes note.note_title searchTerm || jsIncludes note.note_content searchTerm

-- ===========================================================================
-- Sort comparators (src/Home.tsx lines 58-67).  A JS stable sort with
-- comparator c places a before b whenever c(a,b) ≤ 0; we embed each
-- comparator as the boolean relation `c(a,b) ≤ 0` and use the stable
-- `List.mergeSort` as the model of `Array.prototype.sort`.
-- ===========================================================================

/-- Comparator of `case 'newest'`: `(a,b) => b.last_update - a.last_update`,
so a may precede b iff `b.last_update ≤ a.last_update`. -/
def newestLe (a b : Note) : Bool := b.last_update ≤ a.last_update

/-- Comparator of `case 'oldest'`: `(a,b) => a.last_update - b.last_update`. -/
def oldestLe (a b : Note) : Bool := a.last_update ≤ b.last_update

-- Three-way lexicographic comparison on lists of naturals, the building
-- block of the locale-compare model below.

def cmpNatList : List Nat → List Nat → Ordering
  | [], [] => .eq
  | [], _ :: _ => .lt
  | _ :: _, [] => .gt
  | a :: as, b :: bs =>
    if a < b then .lt else if b < a then .gt else cmpNatList as bs

/-- Modelled from the spec: `String.prototype.localeCompare` (a JS builtin,
not code of this repository) is described by the spec as a "locale-aware
string comparison".  We model the default-locale collation on ASCII text:
a primary comparison of the lower-cased letters, and on a primary tie a
tertiary comparison in which lowercase precedes uppercase. -/
def primaryKey (s : String) : List Nat := s.data.map (fun c => c.toLower.toNat)

/-- Tertiary (case-level) key of the locale-compare model. -/
def caseKey (s : String) : List Nat :=
  s.data.map (fun c => if c.isLower then 0 else 1)

/-- Modelled from the spec: the three-way result of `a.localeCompare(b)`. -/
def localeCmp (a b : String) : Ordering :=
  match cmpNatList (primaryKey a) (primaryKey b) with
  | .eq => cmpNatList (caseKey a) (caseKey b)
  | o => o

/-- Comparator of `case 'title'`: `(a,b) => a.note_title.localeCompare(b.note_title)`,
so a may precede b iff the comparison is not positive. -/
def titleLe (a b : Note) : Bool := (localeCmp a.note_title b.note_title).isLE

def sortComparator : SortBy → (Note → Note → Bool)
  | .newest => newestLe
  | .oldest => oldestLe
  | .title => titleLe

/-- The derived view of src/Home.tsx lines 52-68: filter by the raw search
term, then stable-sort with the comparator selected by `sortBy`. -/
def filteredAndSortedNotes (notes : List Note) (searchTerm : String)
    (sortBy : SortBy) : List Note :=
  (notes.filter (fun note => noteMatches note searchTerm)).mergeSort
    (sortComparator sortBy)

-- ===========================================================================
-- Comparison theory for the comparators: transitivity and totality, needed
-- to reason about the stable sort.
-- ===========================================================================

theorem cmpNatList_eq_iff (as : List Nat) : ∀ bs, cmpNatList as bs = .eq ↔ as = bs := by
  induction as with
  | nil => intro bs; cases bs <;> simp [cmpNatList]
  | cons a as ih =>
    intro bs
    cases bs with
    | nil => simp [cmpNatList]
    | cons b bs =>
      simp only [cmpNatList]
      by_cases h1 : a < b
      · simp only [if_pos h1]
        constructor
        · intro hh; exact absurd hh (by decide)
        · intro hh; injection hh with hx hy; omega
      · by_cases h2 : b < a
        · simp only [if_neg h1, if_pos h2]
          constructor
          · intro hh; exact absurd hh (by decide)
          · intro hh; injection hh with hx hy; omega
        · have hab : a = b := by omega
          subst hab
          simp only [if_neg h1, if_neg h2]
          rw [ih bs]
          simp

theorem cmpNatList_gt_iff (as : List Nat) : ∀ bs,
    cmpNatList as bs = .gt ↔ cmpNatList bs as = .lt := by
  induction as with
  | nil => intro bs; cases bs <;> simp [cmpNatList]
  | cons a as ih =>
    intro bs
    cases bs with
    | nil => simp [cmpNatList]
    | cons b bs =>
      simp only [cmpNatList]
      by_cases h1 : a < b
      · have h2 : ¬ b < a := by omega
        simp [h1, h2]
      · by_cases h2 : b < a
        · simp [h1, h2]
        · have hab : a = b := by omega
          subst hab
          simp only [if_neg h1, if_neg h2]
          exact ih bs

theorem cmpNatList_lt_trans (as : List Nat) : ∀ bs cs,
    cmpNatList as bs = .lt → cmpNatList bs cs = .lt → cmpNatList as cs = .lt := by
  induction as with
  | nil =>
    intro bs cs h1 h2
    cases bs with
    | nil => exact absurd h1 (by simp [cmpNatList])
    | cons b bs =>
      cases cs with
      | nil => exact absurd h2 (by simp [cmpNatList])
      | cons c cs => simp [cmpNatList]
  | cons a as ih =>
    intro bs cs h1 h2
    cases bs with
    | nil => exact absurd h1 (by simp [cmpNatList])
    | cons b bs =>
      cases cs with
      | nil => exact absurd h2 (by simp [cmpNatList])
      | cons c cs =>
        simp only [cmpNatList] at h1 h2 ⊢
        by_cases hab : a < b
        · by_cases hbc : b < c
          · have hac : a < c := by omega
            simp [hac]
          · by_cases hcb : c < b
            · simp [hbc, hcb] at h2
            · have hbc2 : b = c := by omega
              have hac : a < c := by omega
              simp [hac]
        · by_cases hba : b < a
          · simp [hab, hba] at h1
          · have hab2 : a = b := by omega
            subst hab2
            simp only [if_neg hab, if_neg hba] at h1
            by_cases hbc : a < c
            · simp [hbc]
            · by_cases hcb : c < a
              · simp [hbc, hcb] at h2
              · simp only [if_neg hbc, if_neg hcb] at h2 ⊢
                exact ih bs cs h1 h2

theorem ordering_isLE_iff (o : Ordering) : o.isLE = true ↔ o = .lt ∨ o = .eq := by
  cases o <;> simp [Ordering.isLE]

theorem cmpNatList_isLE_trans (as bs cs : List Nat)
    (h1 : (cmpNatList as bs).isLE = true) (h2 : (cmpNatList bs cs).isLE = true) :
    (cmpNatList as cs).isLE = true := by
  rcases (ordering_isLE_iff _).1 h1 with h1 | h1 <;>
    rcases (ordering_isLE_iff _).1 h2 with h2 | h2
  · exact (ordering_isLE_iff _).2 (Or.inl (cmpNatList_lt_trans as bs cs h1 h2))
  · have hbc := (cmpNatList_eq_iff bs cs).1 h2
    subst hbc
    exact (ordering_isLE_iff _).2 (Or.inl h1)
  · have hab := (cmpNatList_eq_iff as bs).1 h1
    subst hab
    exact (ordering_isLE_iff _).2 (Or.inl h2)
  · have hab := (cmpNatList_eq_iff as bs).1 h1
    subst hab
    exact (ordering_isLE_iff _).2 (Or.inr h2)

theorem cmpNatList_isLE_total (as bs : List Nat) :
    ((cmpNatList as bs).isLE || (cmpNatList bs as).isLE) = true := by
  cases h : cmpNatList as bs with
  | lt => simp [Ordering.isLE]
  | eq => simp [Ordering.isLE]
  | gt =>
    have := (cmpNatList_gt_iff as bs).1 h
    simp [this, Ordering.isLE]

theorem localeCmp_isLE_trans (a b c : String)
    (h1 : (localeCmp a b).isLE = true) (h2 : (localeCmp b c).isLE = true) :
    (localeCmp a c).isLE = true := by
  unfold localeCmp at h1 h2 ⊢
  cases hab : cmpNatList (primaryKey a) (primaryKey b) with
  | gt => rw [hab] at h1; simp [Ordering.isLE] at h1
  | lt =>
    cases hbc : cmpNatList (primaryKey b) (primaryKey c) with
    | gt => rw [hbc] at h2; simp [Ordering.isLE] at h2
    | lt =>
      have hac := cmpNatList_lt_trans _ _ _ hab hbc
      rw [hac]
      rfl
    | eq =>
      have heq := (cmpNatList_eq_iff _ _).1 hbc
      rw [← heq, hab]
      rfl
  | eq =>
    rw [hab] at h1
    have heq := (cmpNatList_eq_iff _ _).1 hab
    cases hbc : cmpNatList (primaryKey b) (primaryKey c) with
    | gt => rw [hbc] at h2; simp [Ordering.isLE] at h2
    | lt =>
      rw [heq, hbc]
      rfl
    | eq =>
      rw [hbc] at h2
      rw [heq, hbc]
      exact cmpNatList_isLE_trans _ _ _ h1 h2

theorem localeCmp_isLE_total (a b : String) :
    ((localeCmp a b).isLE || (localeCmp b a).isLE) = true := by
  unfold localeCmp
  cases hab : cmpNatList (primaryKey a) (primaryKey b) with
  | lt => simp [Ordering.isLE]
  | gt =>
    have := (cmpNatList_gt_iff _ _).1 hab
    rw [this]
    simp [Ordering.isLE]
  | eq =>
    have heq := (cmpNatList_eq_iff _ _).1 hab
    have hba : cmpNatList (primaryKey b) (primaryKey a) = .eq := by
      rw [heq] at hab ⊢; exact hab
    rw [hba]
    exact cmpNatList_isLE_total _ _

theorem titleLe_trans (a b c : Note) (h1 : titleLe a b = true)
    (h2 : titleLe b c = true) : titleLe a c = true :=
  localeCmp_isLE_trans _ _ _ h1 h2

theorem titleLe_total (a b : Note) : (titleLe a b || titleLe b a) = true :=
  localeCmp_isLE_total _ _

theorem newestLe_trans (a b c : Note) (h1 : newestLe a b = true)
    (h2 : newestLe b c = true) : newestLe a c = true := by
  simp only [newestLe, decide_eq_true_eq] at h1 h2 ⊢
  omega

theorem newestLe_total (a b : Note) : (newestLe a b || newestLe b a) = true := by
  simp only [newestLe, Bool.or_eq_true, decide_eq_true_eq]
  omega

theorem oldestLe_trans (a b c : Note) (h1 : oldestLe a b = true)
    (h2 : oldestLe b c = true) : oldestLe a c = true := by
  simp only [oldestLe, decide_eq_true_eq] at h1 h2 ⊢
  omega

theorem oldestLe_total (a b : Note) : (oldestLe a b || oldestLe b a) = true := by
  simp only [oldestLe, Bool.or_eq_true, decide_eq_true_eq]
  omega

-- Small-list evaluation lemmas for the stable sort.

theorem mergeSort_pair {α : Type} (le : α → α → Bool) (a b : α) :
    [a, b].mergeSort le = if le a b then [a, b] else [b, a] := by
  rw [List.mergeSort]
  simp [List.splitInTwo, List.merge]

theorem mergeSort_three {α : Type} (le : α → α → Bool) (a b c : α) :
    [a, b, c].mergeSort le = List.merge ([a, b].mergeSort le) [c] le := by
  rw [List.mergeSort]
  simp [List.splitInTwo]

-- ===========================================================================
-- Concrete example notes from the spec's example scenarios.
-- ===========================================================================

/-- Spec example note 1: Groceries / milk, last updated at T2 = 200. -/
def exGroceries : Note :=
  { note_id := "1", note_title := "Groceries", note_content := "milk",
    last_update := 200 }

/-- Spec example note 2: Todo / gym, last updated at T1 = 100. -/
def exTodo : Note :=
  { note_id := "2", note_title := "Todo", note_content := "gym",
    last_update := 100 }

/-- Title-sort example note titled "banana". -/
def exBanana : Note :=
  { note_id := "b", note_title := "banana", note_content := "", last_update := 0 }

/-- Title-sort example note titled "Apple". -/
def exApple : Note :=
  { note_id := "a", note_title := "Apple", note_content := "", last_update := 0 }

/-- Title-sort example note titled "cherry". -/
def exCherry : Note :=
  { note_id := "c", note_title := "cherry", note_content := "", last_update := 0 }

-- ===========================================================================
-- Claim theorems C5, C6, C7: the derived (filtered, sorted) view.
-- ===========================================================================

/-- C5: the displayed list keeps exactly those notes whose title or content
contains the raw search term as a case-insensitive substring; for the cache
[Groceries/milk, Todo/gym] and raw term "gy" the result is note 2 only. -/
theorem filter_keeps_exactly_matching :
    (∀ (notes : List Note) (term : String) (sb : SortBy) (n : Note),
      n ∈ filteredAndSortedNotes notes term sb ↔
        n ∈ notes ∧ noteMatches n term = true) ∧
    (∀ sb : SortBy, filteredAndSortedNotes [exGroceries, exTodo] "gy" sb = [exTodo]) := by
  constructor
  · intro notes term sb n
    unfold filteredAndSortedNotes
    rw [List.mem_mergeSort, List.mem_filter]
  · intro sb
    unfold filteredAndSortedNotes
    have hf : ([exGroceries, exTodo].filter
        (fun note => noteMatches note "gy")) = [exTodo] := by decide
    rw [hf, List.mergeSort_singleton]

/-- C6: sort mode newest orders the displayed notes descending by
last-updated timestamp and sort mode oldest ascending; on the spec's
example cache, newest yields [note 1, note 2] and oldest [note 2, note 1]. -/
theorem sort_newest_oldest :
    (∀ (notes : List Note) (term : String),
      (filteredAndSortedNotes notes term .newest).Pairwise
        (fun a b => b.last_update ≤ a.last_update)) ∧
    (∀ (notes : List Note) (term : String),
      (filteredAndSortedNotes notes term .oldest).Pairwise
        (fun a b => a.last_update ≤ b.last_update)) ∧
    filteredAndSortedNotes [exGroceries, exTodo] "" .newest = [exGroceries, exTodo] ∧
    filteredAndSortedNotes [exGroceries, exTodo] "" .oldest = [exTodo, exGroceries] := by
  refine ⟨?_, ?_, ?_, ?_⟩
  · intro notes term
    have h := List.sorted_mergeSort newestLe_trans newestLe_total
      (notes.filter (fun note => noteMatches note term))
    exact h.imp (by intro a b hab; simpa [newestLe] using hab)
  · intro notes term
    have h := List.sorted_mergeSort oldestLe_trans oldestLe_total
      (notes.filter (fun note => noteMatches note term))
    exact h.imp (by intro a b hab; simpa [oldestLe] using hab)
  · unfold filteredAndSortedNotes
    have hf : ([exGroceries, exTodo].filter
        (fun note => noteMatches note "")) = [exGroceries, exTodo] := by decide
    rw [hf]
    show List.mergeSort [exGroceries, exTodo] newestLe = [exGroceries, exTodo]
    rw [mergeSort_pair]
    have : newestLe exGroceries exTodo = true := by decide
    rw [this]
    simp
  · unfold filteredAndSortedNotes
    have hf : ([exGroceries, exTodo].filter
        (fun note => noteMatches note "")) = [exGroceries, exTodo] := by decide
    rw [hf]
    show List.mergeSort [exGroceries, exTodo] oldestLe = [exTodo, exGroceries]
    rw [mergeSort_pair]
    have : oldestLe exGroceries exTodo = false := by decide
    rw [this]
    simp

/-- C7: sort mode title orders the displayed notes ascending by the
locale-aware comparison on titles, any pair already in comparator order in
the filtered cache keeps its relative order (stability), and the titles
banana, Apple, cherry sort to Apple, banana, cherry. -/
theorem title_sort_ascending_stable (notes : List Note) (term : String)
    (a b : Note)
    (hpair : List.Sublist [a, b] (notes.filter (fun note => noteMatches note term)))
    (hab : titleLe a b = true) :
    (filteredAndSortedNotes notes term .title).Pairwise
      (fun x y => titleLe x y = true) ∧
    List.Sublist [a, b] (filteredAndSortedNotes notes term .title) ∧
    filteredAndSortedNotes [exBanana, exApple, exCherry] "" .title =
      [exApple, exBanana, exCherry] := by
  refine ⟨?_, ?_, ?_⟩
  · exact List.sorted_mergeSort titleLe_trans titleLe_total
      (notes.filter (fun note => noteMatches note term))
  · exact List.pair_sublist_mergeSort titleLe_trans titleLe_total hab hpair
  · unfold filteredAndSortedNotes
    have hf : ([exBanana, exApple, exCherry].filter
        (fun note => noteMatches note "")) = [exBanana, exApple, exCherry] := by decide
    rw [hf]
    show List.mergeSort [exBanana, exApple, exCherry] titleLe =
      [exApple, exBanana, exCherry]
    rw [mergeSort_three, mergeSort_pair]
    have h1 : titleLe exBanana exApple = false := by decide
    rw [h1]
    have h2 : titleLe exApple exCherry = true := by decide
    have h3 : titleLe exBanana exCherry = true := by decide
    simp [List.merge, h2, h3]

/-- Witness for C7 at the concrete title-sort example. -/
theorem title_sort_ascending_stable_witness :
    (filteredAndSortedNotes [exBanana, exApple, exCherry] "" .title).Pairwise
      (fun x y => titleLe x y = true) ∧
    List.Sublist [exApple, exCherry]
      (filteredAndSortedNotes [exBanana, exApple, exCherry] "" .title) ∧
    filteredAndSortedNotes [exBanana, exApple, exCherry] "" .title =
      [exApple, exBanana, exCherry] :=
  title_sort_ascending_stable [exBanana, exApple, exCherry] "" exApple exCherry
    (by decide) (by decide)

-- ===========================================================================
-- Note Store model.  The store itself (useNotesStore: loadNotes, addNote,
-- updateNote, deleteNote) is not among the provided source files; only its
-- caller src/Home.tsx is.  The store operations below are therefore
-- modelled from the spec (sections 4.1 and 4.2); the request-formation
-- code (handleLoadMore, the query-change effect) is embedded from
-- src/Home.tsx itself.
-- ===========================================================================

structure NotesState where
  notes : List Note
  total : Nat
  page : Nat
  per_page : Nat
  loading : Bool
  error : Option String
deriving Repr, DecidableEq

/-- A loadNotes request as issued by src/Home.tsx; it carries the page
index, page size and search term passed at call time. -/
structure LoadRequest where
  pageIndex : Nat
  per_page : Nat
  search : String
deriving Repr, DecidableEq

/-- A successful page response from GET /notes. -/
structure PageResponse where
  notes : List Note
  total : Nat
  page : Nat
  per_page : Nat
deriving Repr, DecidableEq

/-- Modelled from the spec: the success path of the store's
`loadPage(pageIndex, pageSize, searchTerm)` (the repository's `loadNotes`,
whose source is not under src/): "On success, if `pageIndex == 1` replaces
the cached collection; otherwise appends to it, preserving order.  Updates
`total`, `page`, `per_page` from the response", clears loading, and a
successful call leaves no error. -/
def applyLoadSuccess (s : NotesState) (pageIndex : Nat) (resp : PageResponse) :
    NotesState :=
  { notes := if pageIndex = 1 then resp.notes else s.notes ++ resp.notes,
    total := resp.total,
    page := resp.page,
    per_page := resp.per_page,
    loading := false,
    error := none }

/-- The load-more handler of src/Home.tsx lines 101-103:
`loadNotes(page + 1, per_page, debouncedSearchTerm)` — the page index is
read from the shared store state at call time. -/
def handleLoadMore (s : NotesState) (debouncedSearchTerm : String) : LoadRequest :=
  { pageIndex := s.page + 1, per_page := s.per_page, search := debouncedSearchTerm }

/-- The query-change effect of src/Home.tsx lines 46-50: when the user is
present (the component is behind a protected route), any change of the
debounced term, of the page size, or the initial mount triggers
`loadNotes(1, per_page, debouncedSearchTerm)`. -/
def loadOnQueryChange (user : Option String) (per_page : Nat)
    (debouncedSearchTerm : String) : Option LoadRequest :=
  if user.isSome then
    some { pageIndex := 1, per_page := per_page, search := debouncedSearchTerm }
  else none

-- ===========================================================================
-- Claim C3: a query change always requests page 1, and a successful
-- page-1 load replaces the cache.
-- ===========================================================================

/-- C3: whenever the query-change effect fires (debounced-term change,
initial mount, or page-size change, with a user present) it issues a load
request with page index 1, and every successful load with page index 1
replaces — never appends to — the cached collection. -/
theorem query_change_loads_page_one (user : Option String) (pp : Nat)
    (term : String) (r : LoadRequest)
    (h : loadOnQueryChange user pp term = some r) :
    r.pageIndex = 1 ∧
    ∀ (s : NotesState) (resp : PageResponse),
      (applyLoadSuccess s r.pageIndex resp).notes = resp.notes := by
  unfold loadOnQueryChange at h
  by_cases hu : user.isSome
  · rw [if_pos hu] at h
    injection h with h
    subst h
    exact ⟨rfl, fun s resp => by simp [applyLoadSuccess]⟩
  · rw [if_neg hu] at h
    exact absurd h (by simp)

/-- Witness for C3 at a concrete query change. -/
theorem query_change_loads_page_one_witness :
    ({ pageIndex := 1, per_page := 9, search := "milk" } : LoadRequest).pageIndex = 1 ∧
    ∀ (s : NotesState) (resp : PageResponse),
      (applyLoadSuccess s
        ({ pageIndex := 1, per_page := 9, search := "milk" } : LoadRequest).pageIndex
        resp).notes = resp.notes :=
  query_change_loads_page_one (some "user-1") 9 "milk" _ rfl

-- ===========================================================================
-- Claim C4: a successful load of page N > 1 appends, preserving order.
-- ===========================================================================

/-- C4: for every successful load with page index N > 1 the returned notes
are appended to the cached collection preserving order, the new cached
length is the previous length plus the number of returned notes, and —
given the spec's invariant that accumulated notes never exceed the total —
the new length stays capped at the response total. -/
theorem load_more_appends (s : NotesState) (N : Nat) (resp : PageResponse)
    (hN : 1 < N)
    (hcap : s.notes.length + resp.notes.length ≤ resp.total) :
    (applyLoadSuccess s N resp).notes = s.notes ++ resp.notes ∧
    (applyLoadSuccess s N resp).notes.length
      = s.notes.length + resp.notes.length ∧
    (applyLoadSuccess s N resp).notes.length ≤ (applyLoadSuccess s N resp).total := by
  have hne : N ≠ 1 := by omega
  refine ⟨?_, ?_, ?_⟩ <;> simp [applyLoadSuccess, hne, hcap]

/-- Witness for C4 at a concrete page-2 load. -/
theorem load_more_appends_witness :
    (1 : Nat) < 2 ∧
    ((applyLoadSuccess
        { notes := [exGroceries], total := 2, page := 1, per_page := 1,
          loading := false, error := none } 2
        { notes := [exTodo], total := 2, page := 2, per_page := 1 }).notes
      = [exGroceries] ++ [exTodo] ∧
    (applyLoadSuccess
        { notes := [exGroceries], total := 2, page := 1, per_page := 1,
          loading := false, error := none } 2
        { notes := [exTodo], total := 2, page := 2, per_page := 1 }).notes.length
      = [exGroceries].length + [exTodo].length ∧
    (applyLoadSuccess
        { notes := [exGroceries], total := 2, page := 1, per_page := 1,
          loading := false, error := none } 2
        { notes := [exTodo], total := 2, page := 2, per_page := 1 }).notes.length
      ≤ (applyLoadSuccess
        { notes := [exGroceries], total := 2, page := 1, per_page := 1,
          loading := false, error := none } 2
        { notes := [exTodo], total := 2, page := 2, per_page := 1 }).total) :=
  ⟨by decide,
    load_more_appends
      { notes := [exGroceries], total := 2, page := 1, per_page := 1,
        loading := false, error := none } 2
      { notes := [exTodo], total := 2, page := 2, per_page := 1 }
      (by decide) (by decide)⟩

-- ===========================================================================
-- Claim C1: overlapping loadPage calls and out-of-order responses.
-- Each response is merged with the page index its request carried; the
-- schedule below shows that this alone does not keep out-of-order
-- responses from mixing pages.
-- ===========================================================================

/-- Scenario note i of the empty-search result set. -/
def ovNote (i : Nat) : Note :=
  { note_id := "n" ++ toString i, note_title := "n", note_content := "",
    last_update := i }

/-- Scenario note i of the "x"-search result set. -/
def ovMNote (i : Nat) : Note :=
  { note_id := "m" ++ toString i, note_title := "x", note_content := "",
    last_update := 100 + i }

/-- Scenario start state: page 1 of the empty search is cached. -/
def ovStart : NotesState :=
  { notes := [ovNote 1, ovNote 2], total := 4, page := 1, per_page := 2,
    loading := false, error := none }

/-- The slow earlier request: load more issued from the start state
(page 2 of the empty search), formed by the source's handleLoadMore. -/
def ovReqA : LoadRequest := handleLoadMore ovStart ""

/-- The later request: the debounced term changed to "x", so the query
effect requests page 1 of "x". -/
def ovReqB : LoadRequest := { pageIndex := 1, per_page := 2, search := "x" }

/-- Response to the slow request: page 2 of the empty search. -/
def ovRespA : PageResponse :=
  { notes := [ovNote 3, ovNote 4], total := 4, page := 2, per_page := 2 }

/-- Response to the later request: page 1 of the "x" search. -/
def ovRespB : PageResponse :=
  { notes := [ovMNote 1, ovMNote 2], total := 2, page := 1, per_page := 2 }

/-- Final state when the responses settle out of request order (B, then A);
each merge uses its own request's page index. -/
def ovOutOfOrder : NotesState :=
  applyLoadSuccess (applyLoadSuccess ovStart ovReqB.pageIndex ovRespB)
    ovReqA.pageIndex ovRespA

/-- Final state when the responses settle in request order (A, then B). -/
def ovInOrder : NotesState :=
  applyLoadSuccess (applyLoadSuccess ovStart ovReqA.pageIndex ovRespA)
    ovReqB.pageIndex ovRespB

/-- C1 counterexample: even though every merge is applied with its own
call's page index, out-of-order settlement leaves the cache mixing page 1
of the "x" search with page 2 of the empty search — a result different
from in-order settlement and containing a note that belongs to no page of
the now-current search. -/
theorem out_of_order_mixes_pages :
    loadOnQueryChange (some "u") 2 "x" = some ovReqB ∧
    ovReqA = handleLoadMore ovStart "" ∧
    ovOutOfOrder.notes = [ovMNote 1, ovMNote 2, ovNote 3, ovNote 4] ∧
    ovInOrder.notes = [ovMNote 1, ovMNote 2] ∧
    ovOutOfOrder.notes ≠ ovInOrder.notes ∧
    ovNote 3 ∈ ovOutOfOrder.notes ∧
    ovNote 3 ∉ ovRespB.notes := by
  decide

/-- C1 (amended): the cache merge is applied with the page index the call
carried at call time — the merged cache is independent of the store's
shared page cursor, replacing for a call-time index of 1 and appending
otherwise.  (Out-of-order responses can nevertheless mix pages, as the
counterexample schedule shows.) -/
theorem merge_uses_call_page_index (s : NotesState) (cursor : Nat) (i : Nat)
    (resp : PageResponse) :
    (applyLoadSuccess { s with page := cursor } i resp).notes
      = (applyLoadSuccess s i resp).notes ∧
    (applyLoadSuccess s i resp).notes
      = (if i = 1 then resp.notes else s.notes ++ resp.notes) :=
  ⟨rfl, rfl⟩

-- ===========================================================================
-- Claim C10: deleting a note.
-- ===========================================================================

/-- Modelled from the spec: the store's `deleteNote(id)` (source not under
src/): it issues DELETE /notes/id; on success it removes the cache entry
with the matching identifier and the displayed count drops by one; when no
such note exists the call fails with a not-found error and the cache is
unchanged. -/
def deleteNote (s : NotesState) (id : String) : NotesState × Option String :=
  if s.notes.any (fun n => n.note_id == id) then
    ({ s with notes := s.notes.filter (fun n => n.note_id != id),
              total := s.total - 1 }, none)
  else
    (s, some "Note not found")

theorem filter_ne_id_length (l : List Note) (id : String)
    (hnodup : (l.map Note.note_id).Nodup)
    (hmem : ∃ n, n ∈ l ∧ n.note_id = id) :
    (l.filter (fun n => n.note_id != id)).length + 1 = l.length := by
  induction l with
  | nil => rcases hmem with ⟨n, hn, _⟩; cases hn
  | cons x xs ih =>
    rw [List.map_cons, List.nodup_cons] at hnodup
    rw [List.filter_cons]
    by_cases hx : x.note_id = id
    · have hxs : ∀ n ∈ xs, (n.note_id != id) = true := by
        intro n hn
        have hne : n.note_id ≠ id := by
          intro he
          exact hnodup.1 (by rw [hx, ← he]; exact List.mem_map_of_mem _ hn)
        simpa using hne
      have hpx : (x.note_id != id) = false := by simpa using hx
      simp [hpx, List.filter_eq_self.mpr hxs]
    · have hpx : (x.note_id != id) = true := by simpa using hx
      have hmem2 : ∃ n, n ∈ xs ∧ n.note_id = id := by
        rcases hmem with ⟨n, hn, hid⟩
        rcases List.mem_cons.mp hn with hnx | hnx
        · exact absurd hid (by rw [hnx]; exact hx)
        · exact ⟨n, hnx, hid⟩
      have hih := ih hnodup.2 hmem2
      simp only [hpx, if_true, List.length_cons]
      omega

/-- C10: deleting an identifier present in a duplicate-free cache succeeds,
removes exactly the matching entry, drops the cached length and the
displayed total by one, and a second delete of the same identifier fails
with a not-found error and leaves the store unchanged. -/
theorem delete_note_removes_exactly_one (s : NotesState) (id : String)
    (hnodup : (s.notes.map Note.note_id).Nodup)
    (hmem : ∃ n, n ∈ s.notes ∧ n.note_id = id) :
    (deleteNote s id).2 = none ∧
    (deleteNote s id).1.notes.length + 1 = s.notes.length ∧
    (∀ m, m ∈ (deleteNote s id).1.notes ↔ m ∈ s.notes ∧ m.note_id ≠ id) ∧
    (deleteNote s id).1.total = s.total - 1 ∧
    deleteNote (deleteNote s id).1 id = ((deleteNote s id).1, some "Note not found") := by
  have hany : s.notes.any (fun n => n.note_id == id) = true := by
    rcases hmem with ⟨n, hn, hid⟩
    exact List.any_eq_true.mpr ⟨n, hn, by simpa using hid⟩
  have hfst : (deleteNote s id).1 =
      { s with notes := s.notes.filter (fun n => n.note_id != id),
               total := s.total - 1 } := by
    simp [deleteNote, hany]
  have hsnd : (deleteNote s id).2 = none := by
    simp [deleteNote, hany]
  have hnone : ((deleteNote s id).1.notes.any (fun n => n.note_id == id)) = false := by
    rw [hfst]
    simp only [List.any_filter]
    rw [List.any_eq_false]
    intro n hn
    by_cases hne : n.note_id = id <;> simp [hne]
  refine ⟨hsnd, ?_, ?_, ?_, ?_⟩
  · rw [hfst]
    exact filter_ne_id_length s.notes id hnodup hmem
  · intro m
    rw [hfst]
    simp only [List.mem_filter]
    constructor
    · rintro ⟨hm, hb⟩
      exact ⟨hm, by simpa using hb⟩
    · rintro ⟨hm, hb⟩
      exact ⟨hm, by simpa using hb⟩
  · rw [hfst]
  · rw [deleteNote, if_neg (by rw [hnone]; simp)]

/-- Witness for C10 at a concrete two-note cache. -/
theorem delete_note_removes_exactly_one_witness :
    (deleteNote
        { notes := [exGroceries, exTodo], total := 2, page := 1, per_page := 9,
          loading := false, error := none } "2").2 = none ∧
    (deleteNote
        { notes := [exGroceries, exTodo], total := 2, page := 1, per_page := 9,
          loading := false, error := none } "2").1.notes.length + 1
      = ([exGroceries, exTodo] : List Note).length ∧
    (∀ m, m ∈ (deleteNote
        { notes := [exGroceries, exTodo], total := 2, page := 1, per_page := 9,
          loading := false, error := none } "2").1.notes ↔
        m ∈ ([exGroceries, exTodo] : List Note) ∧ m.note_id ≠ "2") ∧
    (deleteNote
        { notes := [exGroceries, exTodo], total := 2, page := 1, per_page := 9,
          loading := false, error := none } "2").1.total = 2 - 1 ∧
    deleteNote (deleteNote
        { notes := [exGroceries, exTodo], total := 2, page := 1, per_page := 9,
          loading := false, error := none } "2").1 "2"
      = ((deleteNote
        { notes := [exGroceries, exTodo], total := 2, page := 1, per_page := 9,
          loading := false, error := none } "2").1, some "Note not found") :=
  delete_note_removes_exactly_one
    { notes := [exGroceries, exTodo], total := 2, page := 1, per_page := 9,
      loading := false, error := none } "2"
    (by decide) ⟨exTodo, by decide, rfl⟩

-- ===========================================================================
-- Claim C2: the debounce effect of src/Home.tsx lines 37-43.  Every change
-- of the raw term schedules a 500 ms timer that will publish the term, and
-- the effect cleanup cancels the still-pending timer on the next change.
-- `debounceFires ks` lists the (time, value) updates that actually fire
-- for the keystroke sequence `ks` (times strictly increasing): the timer
-- scheduled at time t survives iff no further keystroke lands before
-- t + 500.
-- ===========================================================================

def debounceWindow : Nat := 500

def debounceFires : List (Nat × String) → List (Nat × String)
  | [] => []
  | [k] => [(k.1 + debounceWindow, k.2)]
  | k :: k2 :: rest =>
    (if k.1 + debounceWindow ≤ k2.1 then [(k.1 + debounceWindow, k.2)] else [])
      ++ debounceFires (k2 :: rest)

/-- C2: when every keystroke follows its predecessor within less than
500 ms, exactly one debounced update fires; it carries the final
keystroke's value and fires 500 ms after that final keystroke. -/
theorem debounce_single_update (ks : List (Nat × String)) (hne : ks ≠ [])
    (hfast : ks.Chain' (fun a b => b.1 < a.1 + debounceWindow)) :
    debounceFires ks
      = [((ks.getLast hne).1 + debounceWindow, (ks.getLast hne).2)] := by
  induction ks with
  | nil => exact absurd rfl hne
  | cons k rest ih =>
    cases rest with
    | nil => simp [debounceFires]
    | cons k2 rest2 =>
      rw [List.chain'_cons] at hfast
      have hlt : k2.1 < k.1 + debounceWindow := hfast.1
      have hstep : debounceFires (k :: k2 :: rest2) = debounceFires (k2 :: rest2) := by
        simp only [debounceFires]
        rw [if_neg (by omega)]
        simp
      rw [hstep, ih (by simp) hfast.2]
      have hlast : (k :: k2 :: rest2).getLast hne = (k2 :: rest2).getLast (by simp) :=
        List.getLast_cons (by simp)
      rw [hlast]

/-- Witness for C2: two keystrokes 100 ms apart fire one update, with the
final value, 500 ms after the second keystroke. -/
theorem debounce_single_update_witness :
    debounceFires [(0, "g"), (100, "gy")] = [(600, "gy")] := by
  have h := debounce_single_update [(0, "g"), (100, "gy")] (by simp)
    (by simp [debounceWindow])
  simpa using h

-- ===========================================================================
-- Claim C8: the empty-state rendering of src/Home.tsx lines 105-114 and
-- 179-186 together with src/EmptyState.tsx.
-- ===========================================================================

inductive HomeView where
  | spinner
  | createFirstNote
  | noMatches
  | grid (shown : List Note)
deriving Repr, DecidableEq

/-- The rendering decision of src/Home.tsx: a spinner while the first load
is in flight (lines 105-114); otherwise, if the filtered-and-sorted list is
empty, either the create-your-first-note affordance (cache empty) or the
no-matches message (cache non-empty), and otherwise the notes grid
(lines 179-214). -/
def renderHome (isLoading : Bool) (notes : List Note) (searchTerm : String)
    (sortBy : SortBy) : HomeView :=
  if isLoading && notes.length == 0 then .spinner
  else if (filteredAndSortedNotes notes searchTerm sortBy).length = 0 then
    (if notes.length = 0 then .createFirstNote else .noMatches)
  else .grid (filteredAndSortedNotes notes searchTerm sortBy)

/-- C8: with no load in flight, an empty cache renders the
create-your-first-note affordance, while a non-empty cache whose filtered
result is empty renders the no-matches message; the two views are
distinct. -/
theorem empty_states_distinct (isLoading : Bool) (notes : List Note)
    (term : String) (sb : SortBy) (hl : isLoading = false) :
    (notes = [] → renderHome isLoading notes term sb = .createFirstNote) ∧
    (notes ≠ [] → filteredAndSortedNotes notes term sb = [] →
      renderHome isLoading notes term sb = .noMatches) ∧
    HomeView.createFirstNote ≠ HomeView.noMatches := by
  subst hl
  refine ⟨?_, ?_, by decide⟩
  · intro h
    subst h
    have hfs : filteredAndSortedNotes [] term sb = [] := by
      simp [filteredAndSortedNotes]
    simp [renderHome, hfs]
  · intro h1 h2
    have hlen : notes.length ≠ 0 := by
      simpa [List.length_eq_zero] using h1
    simp [renderHome, h2, hlen]

/-- Witness for C8 at the empty cache. -/
theorem empty_states_distinct_witness :
    (([] : List Note) = [] → renderHome false [] "" .newest = .createFirstNote) ∧
    (([] : List Note) ≠ [] → filteredAndSortedNotes [] "" .newest = [] →
      renderHome false [] "" .newest = .noMatches) ∧
    HomeView.createFirstNote ≠ HomeView.noMatches :=
  empty_states_distinct false [] "" .newest rfl

-- ===========================================================================
-- Claim C9: the derivation is pure and never mutates the cached array.
-- JS arrays are mutable references: `filter` allocates a fresh array while
-- `sort` mutates its receiver in place.  We model the heap of arrays
-- explicitly and run the derivation of src/Home.tsx lines 52-68 on it.
-- ===========================================================================

structure ArrayHeap where
  arrays : List (List Note)
deriving Repr, DecidableEq

def readArray (h : ArrayHeap) (r : Nat) : List Note := h.arrays.getD r []

/-- Allocation of a fresh array, returning its reference. -/
def allocArray (h : ArrayHeap) (l : List Note) : ArrayHeap × Nat :=
  ({ arrays := h.arrays ++ [l] }, h.arrays.length)

/-- In-place update of the array behind reference r. -/
def writeArray (h : ArrayHeap) (r : Nat) (l : List Note) : ArrayHeap :=
  { arrays := h.arrays.set r l }

/-- The derivation of src/Home.tsx lines 52-68 run against the array heap:
`notes.filter(...)` allocates a fresh array, and `.sort(...)` then mutates
that fresh array in place.  Returns the heap and the reference of the
displayed array. -/
def deriveViewOnHeap (h : ArrayHeap) (notesRef : Nat) (searchTerm : String)
    (sortBy : SortBy) : ArrayHeap × Nat :=
  let alloc := allocArray h
    ((readArray h notesRef).filter (fun note => noteMatches note searchTerm))
  (writeArray alloc.1 alloc.2
      ((readArray alloc.1 alloc.2).mergeSort (sortComparator sortBy)),
    alloc.2)

theorem set_append_singleton {α : Type} (xs : List α) (y z : α) :
    (xs ++ [y]).set xs.length z = xs ++ [z] := by
  induction xs with
  | nil => rfl
  | cons x xs ih => simp [ih]

theorem getD_append_left {α : Type} (xs ys : List α) (r : Nat) (d : α)
    (hr : r < xs.length) : (xs ++ ys).getD r d = xs.getD r d := by
  simp [List.getD, List.getElem?_append_left hr]

theorem getD_concat_length {α : Type} (xs : List α) (y : α) (d : α) :
    (xs ++ [y]).getD xs.length d = y := by
  simp [List.getD, List.getElem?_concat_length]

/-- C9: running the filter-then-sort derivation against the heap leaves the
cached notes array unchanged, its only heap effect is allocating the one
fresh result array, and the displayed array holds the pure function of the
cache contents, raw search term and sort mode. -/
theorem derive_view_pure (h : ArrayHeap) (r : Nat) (term : String) (sb : SortBy)
    (hr : r < h.arrays.length) :
    readArray (deriveViewOnHeap h r term sb).1 r = readArray h r ∧
    (deriveViewOnHeap h r term sb).1.arrays
      = h.arrays ++ [filteredAndSortedNotes (readArray h r) term sb] ∧
    readArray (deriveViewOnHeap h r term sb).1 (deriveViewOnHeap h r term sb).2
      = filteredAndSortedNotes (readArray h r) term sb := by
  have hread : readArray
      { arrays := h.arrays ++
          [(readArray h r).filter (fun note => noteMatches note term)] }
      h.arrays.length
      = (readArray h r).filter (fun note => noteMatches note term) :=
    getD_concat_length _ _ _
  have harr : (deriveViewOnHeap h r term sb).1.arrays
      = h.arrays ++ [filteredAndSortedNotes (readArray h r) term sb] := by
    show ((h.arrays ++
        [(readArray h r).filter (fun note => noteMatches note term)]).set
        h.arrays.length
        ((readArray
            { arrays := h.arrays ++
                [(readArray h r).filter (fun note => noteMatches note term)] }
            h.arrays.length).mergeSort (sortComparator sb)))
      = h.arrays ++ [filteredAndSortedNotes (readArray h r) term sb]
    rw [hread, set_append_singleton]
    rfl
  refine ⟨?_, harr, ?_⟩
  · show readArray (deriveViewOnHeap h r term sb).1 r = readArray h r
    unfold readArray
    rw [harr]
    exact getD_append_left _ _ _ _ hr
  · show readArray (deriveViewOnHeap h r term sb).1 h.arrays.length
      = filteredAndSortedNotes (readArray h r) term sb
    unfold readArray
    rw [harr]
    exact getD_concat_length _ _ _

/-- Witness for C9 at a concrete one-array heap. -/
theorem derive_view_pure_witness :
    readArray
      (deriveViewOnHeap { arrays := [[exGroceries, exTodo]] } 0 "" .newest).1 0
      = readArray { arrays := [[exGroceries, exTodo]] } 0 ∧
    (deriveViewOnHeap { arrays := [[exGroceries, exTodo]] } 0 "" .newest).1.arrays
      = [[exGroceries, exTodo]] ++
        [filteredAndSortedNotes
          (readArray { arrays := [[exGroceries, exTodo]] } 0) "" .newest] ∧
    readArray
      (deriveViewOnHeap { arrays := [[exGroceries, exTodo]] } 0 "" .newest).1
      (deriveViewOnHeap { arrays := [[exGroceries, exTodo]] } 0 "" .newest).2
      = filteredAndSortedNotes
        (readArray { arrays := [[exGroceries, exTodo]] } 0) "" .newest :=
  derive_view_pure { arrays := [[exGroceries, exTodo]] } 0 "" .newest
    (by decide)

end NotesApp
